import Mathlib

/-!
Shallow embedding of the HTTP service core of `app/main.go` from the
`tailscale-actions-demo` repository: the three request handlers
(`healthHandler`, `userHandler`, `productsHandler`) and the identity
resolver (`tailscaleWhois`), together with the parts of Go's
`encoding/json` behavior they observably depend on (struct-tag field
names, `omitempty`, nil-slice encoding, map-key sorting).

External dependencies (the SQL database, the Tailscale local client)
are modelled as oracle parameters: a handler is a pure function of the
request and of the outcome those dependencies would produce.  Go strings
are modelled as Lean `String` values (sequences of symbols; byte-level
UTF-8 representation is abstracted).  Trailing newlines appended by
`json.Encoder.Encode` and `http.Error` are uniformly omitted from modelled
bodies.
-/

/-- JSON document model.  Numbers are split into the integer and string
cases the handlers can actually produce; Go `float64` driver values are
not modelled (the `lib/pq` driver returns PostgreSQL `DECIMAL` columns as
byte slices, not floats, and no claim depends on float formatting). -/
inductive Json where
  | jNull : Json
  | jBool (b : Bool) : Json
  | jNum (n : Int) : Json
  | jStr (s : String) : Json
  | jArr (xs : List Json) : Json
  | jObj (fields : List (String × Json)) : Json
deriving Repr

def quoteChar : Char := Char.ofNat 34

def backslashChar : Char := Char.ofNat 92

/-- Minimal JSON string escaping (quote and backslash).  Go additionally
escapes control and HTML characters; none of the strings the handlers
emit contain any of those, so the restriction is observably equivalent
on every value this development evaluates. -/
def escapeJson (s : String) : String :=
  String.mk (s.data.foldr
    (fun c acc =>
      if c = quoteChar then backslashChar :: quoteChar :: acc
      else if c = backslashChar then backslashChar :: backslashChar :: acc
      else c :: acc) [])

def quoted (s : String) : String :=
  String.mk [quoteChar] ++ escapeJson s ++ String.mk [quoteChar]

mutual

/-- Serialization of a JSON document to its textual form, mirroring the
output shape of Go's `encoding/json` (object fields are emitted in the
order they appear in the `jObj` list; the map-key sorting Go performs is
applied earlier, when a Go map is turned into a `jObj`). -/
def Json.render : Json → String
  | .jNull => "null"
  | .jBool true => "true"
  | .jBool false => "false"
  | .jNum n => toString n
  | .jStr s => quoted s
  | .jArr xs => "[" ++ renderArr xs ++ "]"
  | .jObj fs => "\x7b" ++ renderObj fs ++ "\x7d"

def renderArr : List Json → String
  | [] => ""
  | [x] => Json.render x
  | x :: y :: rest => Json.render x ++ "," ++ renderArr (y :: rest)

def renderObj : List (String × Json) → String
  | [] => ""
  | [(k, v)] => quoted k ++ ":" ++ Json.render v
  | (k, v) :: p :: rest => quoted k ++ ":" ++ Json.render v ++ "," ++ renderObj (p :: rest)

end

/-- Names of the top-level keys of a JSON object (empty for non-objects). -/
def Json.objKeys : Json → List String
  | .jObj fs => fs.map Prod.fst
  | _ => []

/-- Calendar timestamp, as the UTC instant a PostgreSQL `TIMESTAMP` column
scans into a Go `time.Time`. -/
structure GoTime where
  year : Nat
  month : Nat
  day : Nat
  hour : Nat
  minute : Nat
  second : Nat
deriving Repr, DecidableEq

def pad2 (n : Nat) : String :=
  if n < 10 then "0" ++ toString n else toString n

def pad4 (n : Nat) : String :=
  if n < 10 then "000" ++ toString n
  else if n < 100 then "00" ++ toString n
  else if n < 1000 then "0" ++ toString n
  else toString n

/-- Model of Go `t.Format(time.RFC3339)` for a UTC time value. -/
def formatRFC3339 (t : GoTime) : String :=
  pad4 t.year ++ "-" ++ pad2 t.month ++ "-" ++ pad2 t.day ++ "T" ++
    pad2 t.hour ++ ":" ++ pad2 t.minute ++ ":" ++ pad2 t.second ++ "Z"

/-- Driver-level column value, as `database/sql` delivers it into an
`interface\x7b\x7d` slot for the `lib/pq` driver: `int64`, `bool`,
`[]byte`, `string`, `time.Time`, or SQL NULL (`nil`). -/
inductive SqlValue where
  | vInt (n : Int) : SqlValue
  | vBool (b : Bool) : SqlValue
  | vBytes (b : List Nat) : SqlValue
  | vString (s : String) : SqlValue
  | vTime (t : GoTime) : SqlValue
  | vNull : SqlValue
deriving Repr, DecidableEq

/-- Go `string(b)` on a byte slice: the bytes reinterpreted as text
(symbol-level model). -/
def stringOfBytes (b : List Nat) : String :=
  String.mk (b.map Char.ofNat)

def base64Alphabet : List Char :=
  "ABCDEFGHIJKLMNOPQRSTUVWXYZabcdefghijklmnopqrstuvwxyz0123456789+/".data

def b64char (i : Nat) : String :=
  String.mk [base64Alphabet.getD i (Char.ofNat 65)]

/-- Standard base64 with padding, as Go `encoding/json` applies to a raw
`[]byte` value.  (In `productsHandler` every byte slice is converted to a
string before encoding, so this case is unreachable on that path; it is
implemented rather than stubbed to keep the encoder total and faithful.) -/
def base64Encode : List Nat → String
  | [] => ""
  | [a] => b64char (a / 4) ++ b64char (a % 4 * 16) ++ "=="
  | [a, b] => b64char (a / 4) ++ b64char (a % 4 * 16 + b / 16) ++ b64char (b % 16 * 4) ++ "="
  | a :: b :: c :: rest =>
      b64char (a / 4) ++ b64char (a % 4 * 16 + b / 16) ++
      b64char (b % 16 * 4 + c / 64) ++ b64char (c % 64) ++ base64Encode rest

/-- Go JSON view of a driver value stored in the row map. -/
def encodeSqlValue : SqlValue → Json
  | .vInt n => .jNum n
  | .vBool b => .jBool b
  | .vBytes b => .jStr (base64Encode b)
  | .vString s => .jStr s
  | .vTime t => .jStr (formatRFC3339 t)
  | .vNull => .jNull

/-- Per-value coercion performed by the row loop of `productsHandler`
(main.go lines 326-335): byte slices become strings, `time.Time` values
become RFC 3339 strings, everything else is stored unchanged. -/
def coerceValue : SqlValue → SqlValue
  | .vBytes b => .vString (stringOfBytes b)
  | .vTime t => .vString (formatRFC3339 t)
  | v => v

/-- Go map assignment `m[k] = v` on an association-list representation:
replaces the value at an existing key, otherwise appends. -/
def mapInsert (m : List (String × SqlValue)) (k : String) (v : SqlValue) :
    List (String × SqlValue) :=
  match m with
  | [] => [(k, v)]
  | (k₂, v₂) :: rest => if k₂ = k then (k, v) :: rest else (k₂, v₂) :: mapInsert rest k v

/-- Row loop body of `productsHandler` (main.go lines 322-336): for each
column, the scanned value is coerced and assigned into a fresh Go map.
The handler always scans exactly `columns.length` values, so the `zip`
truncation never applies on the handler path. -/
def marshalRow (columns : List String) (values : List SqlValue) :
    List (String × SqlValue) :=
  (columns.zip values).foldl (fun m p => mapInsert m p.1 (coerceValue p.2)) []

/-- Lexicographic comparison of symbol sequences by code point, the
symbol-level model of Go's byte-wise string comparison. -/
def charsLe : List Char → List Char → Bool
  | [], _ => true
  | _ :: _, [] => false
  | a :: as, b :: bs =>
      if a.toNat < b.toNat then true
      else if b.toNat < a.toNat then false
      else charsLe as bs

def strLe (a b : String) : Bool := charsLe a.data b.data

def insertSorted (k : String) : List String → List String
  | [] => [k]
  | x :: xs => if strLe k x then k :: x :: xs else x :: insertSorted k xs

/-- Lexicographic insertion sort, modelling the `sort.Strings` pass that
Go's `encoding/json` applies to map keys before emitting an object. -/
def sortStrings : List String → List String
  | [] => []
  | x :: xs => insertSorted x (sortStrings xs)

def mapLookup (m : List (String × SqlValue)) (k : String) : SqlValue :=
  match m.find? (fun p => p.1 == k) with
  | some p => p.2
  | none => .vNull

/-- Go JSON encoding of a `map[string]interface\x7b\x7d`: keys are
collected, sorted lexicographically, and emitted in that order —
insertion order is not preserved. -/
def encodeGoMap (m : List (String × SqlValue)) : Json :=
  .jObj ((sortStrings (m.map Prod.fst)).map (fun k => (k, encodeSqlValue (mapLookup m k))))

/-- Go JSON encoding of the `products` slice: the slice starts `nil` and
only grows by `append`, so an empty result is the `nil` slice, which
`encoding/json` renders as `null` (not `[]`). -/
def encodeProductsSlice (products : List (List (String × SqlValue))) : Json :=
  match products with
  | [] => .jNull
  | _ => .jArr (products.map encodeGoMap)

/-- Outcome of one scanned row: the value vector, or the `rows.Scan` error. -/
def ScanOutcome : Type := Except String (List SqlValue)

/-- Observable outcome of the database interaction that `productsHandler`
performs: the result of `rows.Columns()`, the per-row `rows.Scan`
outcomes in cursor order, and the final `rows.Err()` value. -/
structure QueryRows where
  columnsRes : Except String (List String)
  scans : List ScanOutcome
  iterErr : Option String

/-- Outcome of `db.QueryContext`: failure, or an open cursor. -/
inductive DbOutcome where
  | queryFail (msg : String) : DbOutcome
  | ok (rows : QueryRows) : DbOutcome

structure HttpResponse where
  status : Nat
  body : String
deriving Repr, DecidableEq

/-- Body written by `http.Error(w, fmt.Sprintf(...))` in the products
handler: the message is spliced into a JSON-shaped template verbatim
(main.go lines 293, 301, 318, 341); the trailing newline `http.Error`
appends is omitted. -/
def errorBody (msg : String) : String :=
  "\x7b" ++ quoted "error" ++ ": " ++ String.mk [quoteChar] ++ msg ++ String.mk [quoteChar] ++ "\x7d"

/-- Row-collection loop of `productsHandler`: rows are marshalled in
cursor order; the first scan failure aborts the whole operation. -/
def buildProducts (columns : List String) :
    List ScanOutcome → Except String (List (List (String × SqlValue)))
  | [] => .ok []
  | .error e :: _ => .error e
  | .ok vals :: rest =>
      (buildProducts columns rest).map (fun ps => marshalRow columns vals :: ps)

/-- The `GET /api/products` handler (main.go lines 277-346), as a function
of the database outcome. -/
def productsHandler (db : DbOutcome) : HttpResponse :=
  match db with
  | .queryFail msg => ⟨500, errorBody ("Failed to query database: " ++ msg)⟩
  | .ok rows =>
    match rows.columnsRes with
    | .error msg => ⟨500, errorBody ("Failed to get columns: " ++ msg)⟩
    | .ok columns =>
      match buildProducts columns rows.scans with
      | .error msg => ⟨500, errorBody ("Failed to scan row: " ++ msg)⟩
      | .ok products =>
        match rows.iterErr with
        | some msg => ⟨500, errorBody ("Error iterating rows: " ++ msg)⟩
        | none => ⟨200, Json.render (encodeProductsSlice products)⟩

/-- An HTTP request as the identity path observes it: the header set
(keyed by canonical header name, as `Header.Get` canonicalizes) and the
transport-level remote address. -/
structure Request where
  headers : List (String × String)
  remoteAddr : String

/-- Go `r.Header.Get(k)`: the first value under the key, or the empty
string when the header is absent. -/
def headerGet (r : Request) (k : String) : String :=
  match r.headers.find? (fun p => p.1 == k) with
  | some p => p.2
  | none => ""

/-- Resolved identity pair (`WhoIsData` in main.go). -/
structure WhoIsData where
  loginName : String
  displayName : String
deriving Repr, DecidableEq

/-- User profile carried by a WhoIs response (`tailscale.UserProfile`);
`none` models a nil profile pointer. -/
structure TsUserProfile where
  loginName : String
  displayName : String
deriving Repr, DecidableEq

/-- Observable outcome of `client.WhoIs(ctx, addr)`: an error, or a
response with the node's tagged flag and optional user profile. -/
inductive WhoIsResult where
  | err (msg : String) : WhoIsResult
  | ok (isTagged : Bool) (profile : Option TsUserProfile) : WhoIsResult

/-- The Tailscale local client as the handlers observe it: `Status` and a
WhoIs lookup keyed by remote address. -/
def WhoIsOracle : Type := String → WhoIsResult

/-- The identity resolver `tailscaleWhois` (main.go lines 348-386): the
trusted header pair short-circuits the WhoIs lookup; otherwise the lookup
runs, with mode-dependent error text on lookup failure, and tagged or
profile-less peers are rejected.  (Apostrophes in the Go error literal
are elided from the modelled string.) -/
def tailscaleWhois (tsnetMode : Bool) (client : WhoIsOracle) (r : Request) :
    Except String WhoIsData :=
  if headerGet r "Tailscale-User-Login" ≠ "" then
    .ok ⟨headerGet r "Tailscale-User-Login", headerGet r "Tailscale-User-Name"⟩
  else
    match client r.remoteAddr with
    | .err e =>
        if tsnetMode then
          .error ("failed to identify user via tsnet: " ++ e)
        else
          .error "not accessed via Tailscale - use tailscale serve or set TS_AUTHKEY to run in tsnet mode"
    | .ok isTagged profile =>
        if isTagged then
          .error "tagged nodes do not have a user identity"
        else
          match profile with
          | none => .error "failed to identify remote user"
          | some p =>
              if p.loginName = "" then .error "failed to identify remote user"
              else .ok ⟨p.loginName, p.displayName⟩

/-- The `UserInfo` response struct (main.go lines 27-33); all string
fields carry `omitempty` JSON tags. -/
structure UserInfo where
  connected : Bool
  loginName : String
  displayName : String
  firstInitial : String
  error : String
deriving Repr, DecidableEq

/-- Go `string(s[0])` at symbol level: the one-symbol string holding the
first element of `s` (only ever applied to non-empty strings in the
handler). -/
def firstSymbol (s : String) : String :=
  String.mk (s.data.take 1)

/-- The `GET /api/user` handler body (main.go lines 247-275) as a function
of the mode, the client oracle and the request: produces the `UserInfo`
value the handler encodes. -/
def userHandler (tsnetMode : Bool) (client : WhoIsOracle) (r : Request) : UserInfo :=
  match tailscaleWhois tsnetMode client r with
  | .error _ => ⟨false, "", "", "", "Tailscale not available"⟩
  | .ok whois =>
      let firstInitial :=
        if whois.displayName ≠ "" then firstSymbol whois.displayName
        else if whois.loginName ≠ "" then firstSymbol whois.loginName
        else ""
      ⟨true, whois.loginName, whois.displayName, firstInitial, ""⟩

/-- Go JSON encoding of `UserInfo`: fields in struct order, each string
field dropped when empty (`omitempty`); `connected` has no `omitempty`
effect since the claims only exercise explicit values. -/
def encodeUserInfo (u : UserInfo) : Json :=
  .jObj ([("connected", Json.jBool u.connected)] ++
    (if u.loginName = "" then [] else [("login_name", Json.jStr u.loginName)]) ++
    (if u.displayName = "" then [] else [("display_name", Json.jStr u.displayName)]) ++
    (if u.firstInitial = "" then [] else [("first_initial", Json.jStr u.firstInitial)]) ++
    (if u.error = "" then [] else [("error", Json.jStr u.error)]))

/-- Full HTTP response of `GET /api/user`: the handler never writes an
explicit status code, so the first body write fixes status 200. -/
def userResponse (tsnetMode : Bool) (client : WhoIsOracle) (r : Request) : HttpResponse :=
  ⟨200, Json.render (encodeUserInfo (userHandler tsnetMode client r))⟩

/-- The `HealthResponse` struct (main.go lines 40-44); note the third
field's JSON tag is `tailscale`. -/
structure HealthResponse where
  status : String
  database : String
  tailscale : String
deriving Repr, DecidableEq

/-- Observable outcome of `client.Status(ctx)`: an error or nil status
pointer, or a status carrying the backend state string. -/
inductive StatusResult where
  | errOrNil : StatusResult
  | ok (backendState : String) : StatusResult
deriving Repr, DecidableEq

/-- The `GET /health` handler body (main.go lines 216-245) as a function
of the database ping outcome and the Tailscale status outcome. -/
def healthHandler (pingOk : Bool) (st : StatusResult) : HealthResponse :=
  let database := if pingOk then "connected" else "disconnected"
  let ts :=
    match st with
    | .errOrNil => "unknown"
    | .ok backendState =>
        if backendState = "Running" then "connected" else backendState
  ⟨"ok", database, ts⟩

/-- Go JSON encoding of `HealthResponse`: fields in struct order under
their JSON tags, no `omitempty`. -/
def encodeHealth (h : HealthResponse) : Json :=
  .jObj [("status", Json.jStr h.status), ("database", Json.jStr h.database),
    ("tailscale", Json.jStr h.tailscale)]

/-- Full HTTP response of `GET /health`: the handler always writes
`http.StatusOK` explicitly. -/
def healthResponse (pingOk : Bool) (st : StatusResult) : HttpResponse :=
  ⟨200, Json.render (encodeHealth (healthHandler pingOk st))⟩

/-- Whether a scan outcome is the `rows.Scan` failure case. -/
def scanFailed : ScanOutcome → Bool
  | .error _ => true
  | .ok _ => false

/-- Value vector of a successful scan outcome (empty on the failure case,
which the success-path lemmas exclude). -/
def scanValues : ScanOutcome → List SqlValue
  | .error _ => []
  | .ok v => v

/-- Whether any stage of the products database interaction failed: the
query itself, column introspection, some row scan, or cursor iteration. -/
def dbFailed : DbOutcome → Bool
  | .queryFail _ => true
  | .ok rows =>
      match rows.columnsRes with
      | .error _ => true
      | .ok _ => rows.scans.any scanFailed || rows.iterErr.isSome

/-- Sample request carrying both trusted identity headers. -/
def reqWithHeaders : Request :=
  ⟨[("Tailscale-User-Login", "alice@example.com"), ("Tailscale-User-Name", "Alice Example")],
    "100.64.0.7:51123"⟩

/-- Sample request carrying only the login identity header. -/
def reqLoginOnly : Request :=
  ⟨[("Tailscale-User-Login", "carol@example.com")], "100.64.0.7:51123"⟩

/-- Sample request with no identity headers. -/
def reqNoHeaders : Request := ⟨[], "100.64.0.7:51123"⟩

/-- Client oracle whose WhoIs lookup always errors (no reachable daemon). -/
def failingClient : WhoIsOracle := fun _ => .err "no daemon"

/-- Client oracle whose WhoIs lookup resolves an untagged user. -/
def okClient : WhoIsOracle := fun _ => .ok false (some ⟨"bob@example.com", "Bob Builder"⟩)

/-- Database outcome for a successful query over an empty products table. -/
def emptyDb : DbOutcome :=
  .ok ⟨.ok ["id", "name", "price", "created_at"], [], none⟩

/-- Database outcome for a failed query. -/
def failDb : DbOutcome := .queryFail "connection refused"

/-- Database outcome with one successfully scanned row. -/
def oneRowDb : DbOutcome :=
  .ok ⟨.ok ["id", "name"], [.ok [.vInt 1, .vString "Business VPN"]], none⟩

theorem charsLe_total (a b : List Char) : charsLe a b = true ∨ charsLe b a = true := by
  induction a generalizing b with
  | nil => left; simp [charsLe]
  | cons x xs ih =>
    cases b with
    | nil => right; simp [charsLe]
    | cons y ys =>
      rcases Nat.lt_trichotomy x.toNat y.toNat with h | h | h
      · left; simp [charsLe, h]
      · rcases ih ys with h2 | h2
        · left; simp [charsLe, h, h2]
        · right; simp [charsLe, h.symm, h2]
      · right; simp [charsLe, h]

theorem charsLe_trans (a b c : List Char) (h1 : charsLe a b = true) (h2 : charsLe b c = true) :
    charsLe a c = true := by
  induction a generalizing b c with
  | nil => simp [charsLe]
  | cons x xs ih =>
    cases b with
    | nil => simp [charsLe] at h1
    | cons y ys =>
      cases c with
      | nil => simp [charsLe] at h2
      | cons z zs =>
        simp only [charsLe] at h1 h2 ⊢
        by_cases hxy : x.toNat < y.toNat
        · by_cases hyz : y.toNat < z.toNat
          · simp [Nat.lt_trans hxy hyz]
          · simp [hxy] at h1
            by_cases hzy : z.toNat < y.toNat
            · simp [hyz, hzy] at h2
            · have hyz2 : y.toNat = z.toNat :=
                Nat.le_antisymm (Nat.le_of_not_lt hzy) (Nat.le_of_not_lt hyz)
              simp [hyz2 ▸ hxy]
        · by_cases hyx : y.toNat < x.toNat
          · simp [hxy, hyx] at h1
          · have hxy2 : x.toNat = y.toNat :=
              Nat.le_antisymm (Nat.le_of_not_lt hyx) (Nat.le_of_not_lt hxy)
            simp [hxy, hyx] at h1
            by_cases hyz : y.toNat < z.toNat
            · simp [hxy2 ▸ hyz]
            · by_cases hzy : z.toNat < y.toNat
              · simp [hyz, hzy] at h2
              · have hyz2 : y.toNat = z.toNat :=
                  Nat.le_antisymm (Nat.le_of_not_lt hzy) (Nat.le_of_not_lt hyz)
                have hxz : ¬ x.toNat < z.toNat := by omega
                have hzx : ¬ z.toNat < x.toNat := by omega
                simp [hyz, hzy] at h2
                simp [hxz, hzx]
                exact ih ys zs h1 h2

theorem strLe_total (a b : String) : strLe a b = true ∨ strLe b a = true :=
  charsLe_total a.data b.data

theorem strLe_trans (a b c : String) (h1 : strLe a b = true) (h2 : strLe b c = true) :
    strLe a c = true :=
  charsLe_trans a.data b.data c.data h1 h2

theorem mem_insertSorted (a k : String) (l : List String) :
    a ∈ insertSorted k l ↔ a = k ∨ a ∈ l := by
  induction l with
  | nil => simp [insertSorted]
  | cons x xs ih =>
    by_cases h : strLe k x = true
    · simp [insertSorted, h]
    · simp [insertSorted, h, ih]
      tauto

theorem sorted_insertSorted (k : String) (l : List String)
    (h : List.Pairwise (fun a b => strLe a b = true) l) :
    List.Pairwise (fun a b => strLe a b = true) (insertSorted k l) := by
  induction l with
  | nil => simp [insertSorted]
  | cons x xs ih =>
    rcases List.pairwise_cons.mp h with ⟨hx, hxs⟩
    by_cases hkx : strLe k x = true
    · rw [insertSorted, if_pos hkx]
      refine List.pairwise_cons.mpr ⟨?_, h⟩
      intro b hb
      rcases List.mem_cons.mp hb with rfl | hb2
      · exact hkx
      · exact strLe_trans k x b hkx (hx b hb2)
    · rw [insertSorted, if_neg hkx]
      have hxk : strLe x k = true := (strLe_total k x).resolve_left hkx
      refine List.pairwise_cons.mpr ⟨?_, ih hxs⟩
      intro b hb
      rcases (mem_insertSorted b k xs).mp hb with rfl | hb2
      · exact hxk
      · exact hx b hb2

theorem sorted_sortStrings (l : List String) :
    List.Pairwise (fun a b => strLe a b = true) (sortStrings l) := by
  induction l with
  | nil => simp [sortStrings]
  | cons x xs ih => exact sorted_insertSorted x (sortStrings xs) ih

theorem mem_sortStrings (a : String) (l : List String) : a ∈ sortStrings l ↔ a ∈ l := by
  induction l with
  | nil => simp [sortStrings]
  | cons x xs ih =>
    rw [sortStrings, mem_insertSorted]
    simp [ih]

theorem keys_mapInsert (a k : String) (v : SqlValue) (m : List (String × SqlValue)) :
    a ∈ (mapInsert m k v).map Prod.fst ↔ a = k ∨ a ∈ m.map Prod.fst := by
  induction m with
  | nil => simp [mapInsert]
  | cons p rest ih =>
    obtain ⟨k₂, v₂⟩ := p
    by_cases h : k₂ = k
    · subst h
      simp [mapInsert]
    · simp [mapInsert, h, ih]
      tauto

theorem mem_mapInsert (p : String × SqlValue) (k : String) (v : SqlValue)
    (m : List (String × SqlValue)) (hp : p ∈ mapInsert m k v) : p = (k, v) ∨ p ∈ m := by
  induction m with
  | nil => simpa [mapInsert] using hp
  | cons q rest ih =>
    obtain ⟨k₂, v₂⟩ := q
    by_cases h : k₂ = k
    · subst h
      rcases List.mem_cons.mp (by simpa [mapInsert] using hp) with h1 | h1
      · left; exact h1
      · right; exact List.mem_cons_of_mem _ h1
    · rcases List.mem_cons.mp (by simpa [mapInsert, h] using hp) with h1 | h1
      · right; simp [h1]
      · rcases ih h1 with h2 | h2
        · left; exact h2
        · right; exact List.mem_cons_of_mem _ h2

theorem keys_marshalFold (a : String) (l : List (String × SqlValue)) :
    ∀ acc, a ∈ (l.foldl (fun m p => mapInsert m p.1 (coerceValue p.2)) acc).map Prod.fst ↔
      a ∈ acc.map Prod.fst ∨ a ∈ l.map Prod.fst := by
  induction l with
  | nil => intro acc; simp
  | cons p rest ih =>
    intro acc
    rw [List.foldl_cons, ih, keys_mapInsert]
    simp
    tauto

theorem keys_marshalRow (a : String) (cols : List String) (vals : List SqlValue) :
    a ∈ (marshalRow cols vals).map Prod.fst ↔ a ∈ (cols.zip vals).map Prod.fst := by
  rw [marshalRow, keys_marshalFold]
  simp

theorem mem_marshalFold (p : String × SqlValue) (l : List (String × SqlValue)) :
    ∀ acc, p ∈ l.foldl (fun m q => mapInsert m q.1 (coerceValue q.2)) acc →
      p ∈ acc ∨ ∃ q ∈ l, p = (q.1, coerceValue q.2) := by
  induction l with
  | nil => intro acc h; left; simpa using h
  | cons q rest ih =>
    intro acc h
    rw [List.foldl_cons] at h
    rcases ih (mapInsert acc q.1 (coerceValue q.2)) h with h1 | h1
    · rcases mem_mapInsert p q.1 (coerceValue q.2) acc h1 with h2 | h2
      · right; exact ⟨q, List.mem_cons_self q rest, h2⟩
      · left; exact h2
    · right
      obtain ⟨q₂, hq₂, hpq⟩ := h1
      exact ⟨q₂, List.mem_cons_of_mem _ hq₂, hpq⟩

theorem objKeys_encodeGoMap (m : List (String × SqlValue)) :
    (encodeGoMap m).objKeys = sortStrings (m.map Prod.fst) := by
  simp only [encodeGoMap, Json.objKeys, List.map_map]
  exact List.map_id _

theorem append_ne_empty (a b : String) (h : a ≠ "") : a ++ b ≠ "" := by
  intro hc
  apply h
  have h2 := congrArg String.data hc
  rw [String.data_append] at h2
  have h3 : a.data = [] := (List.append_eq_nil.mp h2).1
  exact String.ext h3

theorem buildProducts_length (cols : List String) (scans : List ScanOutcome)
    (ps : List (List (String × SqlValue))) (h : buildProducts cols scans = .ok ps) :
    ps.length = scans.length := by
  induction scans generalizing ps with
  | nil =>
    simp [buildProducts] at h
    simp [← h]
  | cons s rest ih =>
    cases s with
    | error e => simp [buildProducts] at h
    | ok vals =>
      cases hb : buildProducts cols rest with
      | error e => rw [buildProducts, hb] at h; simp [Except.map] at h
      | ok ps₂ =>
        rw [buildProducts, hb] at h
        simp [Except.map] at h
        simp [← h, ih ps₂ hb]

theorem buildProducts_all_ok (cols : List String) (scans : List ScanOutcome)
    (h : ∀ s ∈ scans, scanFailed s = false) :
    buildProducts cols scans = .ok (scans.map fun s => marshalRow cols (scanValues s)) := by
  induction scans with
  | nil => simp [buildProducts]
  | cons s rest ih =>
    cases s with
    | error e =>
      have := h _ (List.mem_cons_self _ _)
      simp [scanFailed] at this
    | ok vals =>
      rw [buildProducts, ih (fun s hs => h s (List.mem_cons_of_mem _ hs))]
      simp [Except.map, scanValues]

theorem buildProducts_any_fail (cols : List String) (scans : List ScanOutcome)
    (h : scans.any scanFailed = true) : ∃ e, buildProducts cols scans = .error e := by
  induction scans with
  | nil => simp at h
  | cons s rest ih =>
    cases s with
    | error e => exact ⟨e, by simp [buildProducts]⟩
    | ok vals =>
      rw [List.any_cons] at h
      simp only [scanFailed, Bool.false_or] at h
      obtain ⟨e, he⟩ := ih h
      exact ⟨e, by rw [buildProducts, he]; simp [Except.map]⟩

/-- C1: for every GET /api/user request whose header set contains a
non-empty trusted Tailscale-User-Login header, the response reflects the
header pair verbatim — connected=true, login_name equal to the login
header value, display_name equal to the name header value — with HTTP
status 200, and the WhoIs lookup is never consulted: the full response is
identical under any two client oracles. -/
theorem user_header_precedence (tsnetMode : Bool) (client client₂ : WhoIsOracle) (r : Request)
    (h : headerGet r "Tailscale-User-Login" ≠ "") :
    (userHandler tsnetMode client r).connected = true ∧
    (userHandler tsnetMode client r).loginName = headerGet r "Tailscale-User-Login" ∧
    (userHandler tsnetMode client r).displayName = headerGet r "Tailscale-User-Name" ∧
    userResponse tsnetMode client r = userResponse tsnetMode client₂ r ∧
    (userResponse tsnetMode client r).status = 200 := by
  have hw : ∀ c : WhoIsOracle, tailscaleWhois tsnetMode c r =
      .ok ⟨headerGet r "Tailscale-User-Login", headerGet r "Tailscale-User-Name"⟩ := by
    intro c
    rw [tailscaleWhois, if_pos h]
  refine ⟨?_, ?_, ?_, ?_, rfl⟩ <;>
    simp [userHandler, userResponse, hw]

/-- Witness for C1 at a concrete request carrying both headers, under a
failing oracle and a succeeding oracle. -/
theorem user_header_precedence_witness :
    (userHandler false failingClient reqWithHeaders).connected = true ∧
    (userHandler false failingClient reqWithHeaders).loginName = "alice@example.com" ∧
    (userHandler false failingClient reqWithHeaders).displayName = "Alice Example" ∧
    userResponse false failingClient reqWithHeaders = userResponse false okClient reqWithHeaders := by
  obtain ⟨h1, h2, h3, h4, h5⟩ :=
    user_header_precedence false failingClient okClient reqWithHeaders (by decide)
  exact ⟨h1, h2.trans (by decide), h3.trans (by decide), h4⟩

/-- C2: for every GET /api/user request with no trusted login header whose
identity resolution fails (for any reason), the response has HTTP status
200 with connected=false and a non-empty error string. -/
theorem user_unreachable_identity (tsnetMode : Bool) (client : WhoIsOracle) (r : Request)
    (msg : String) (_hh : headerGet r "Tailscale-User-Login" = "")
    (h : tailscaleWhois tsnetMode client r = .error msg) :
    (userResponse tsnetMode client r).status = 200 ∧
    (userHandler tsnetMode client r).connected = false ∧
    (userHandler tsnetMode client r).error ≠ "" := by
  have hu : userHandler tsnetMode client r = ⟨false, "", "", "", "Tailscale not available"⟩ := by
    simp [userHandler, h]
  refine ⟨rfl, by rw [hu], by rw [hu]; decide⟩

/-- Witness for C2 at a concrete headerless request and a failing oracle. -/
theorem user_unreachable_identity_witness :
    (userResponse false failingClient reqNoHeaders).status = 200 ∧
    (userHandler false failingClient reqNoHeaders).connected = false ∧
    (userHandler false failingClient reqNoHeaders).error ≠ "" :=
  user_unreachable_identity false failingClient reqNoHeaders
    "not accessed via Tailscale - use tailscale serve or set TS_AUTHKEY to run in tsnet mode"
    rfl rfl

/-- C9: for every successfully resolved identity, first_initial equals the
first character of display_name when display_name is non-empty, else the
first character of login_name; when both are empty the first_initial key
is absent from the encoded response. -/
theorem user_first_initial (tsnetMode : Bool) (client : WhoIsOracle) (r : Request)
    (w : WhoIsData) (h : tailscaleWhois tsnetMode client r = .ok w) :
    (w.displayName ≠ "" →
      (userHandler tsnetMode client r).firstInitial = firstSymbol w.displayName) ∧
    (w.displayName = "" → w.loginName ≠ "" →
      (userHandler tsnetMode client r).firstInitial = firstSymbol w.loginName) ∧
    (w.displayName = "" → w.loginName = "" →
      "first_initial" ∉ (encodeUserInfo (userHandler tsnetMode client r)).objKeys) := by
  refine ⟨?_, ?_, ?_⟩
  · intro hd
    simp [userHandler, h, hd]
  · intro hd hl
    simp [userHandler, h, hd, hl]
  · intro hd hl
    simp [userHandler, h, hd, hl, encodeUserInfo, Json.objKeys]

/-- Witness for C9 at a WhoIs-resolved identity with a non-empty display
name. -/
theorem user_first_initial_witness :
    (userHandler false okClient reqNoHeaders).firstInitial = "B" := by
  have h := (user_first_initial false okClient reqNoHeaders
    ⟨"bob@example.com", "Bob Builder"⟩ rfl).1 (by decide)
  exact h.trans (by decide)

/-- C10: only the login header gates the trusted-header path — with a
non-empty login header and an empty name header, resolution succeeds
without consulting the lookup (response identical under any two oracles),
connected=true, the display_name key is absent from the encoded response,
and first_initial is derived from the start of the login name. -/
theorem user_login_header_alone (tsnetMode : Bool) (client client₂ : WhoIsOracle) (r : Request)
    (hlogin : headerGet r "Tailscale-User-Login" ≠ "")
    (hname : headerGet r "Tailscale-User-Name" = "") :
    userHandler tsnetMode client r =
      ⟨true, headerGet r "Tailscale-User-Login", "",
        firstSymbol (headerGet r "Tailscale-User-Login"), ""⟩ ∧
    "display_name" ∉ (encodeUserInfo (userHandler tsnetMode client r)).objKeys ∧
    userHandler tsnetMode client r = userHandler tsnetMode client₂ r := by
  have hw : ∀ c : WhoIsOracle, tailscaleWhois tsnetMode c r =
      .ok ⟨headerGet r "Tailscale-User-Login", ""⟩ := by
    intro c
    rw [tailscaleWhois, if_pos hlogin, hname]
  have hu : ∀ c : WhoIsOracle, userHandler tsnetMode c r =
      ⟨true, headerGet r "Tailscale-User-Login", "",
        firstSymbol (headerGet r "Tailscale-User-Login"), ""⟩ := by
    intro c
    simp [userHandler, hw, hlogin]
  refine ⟨hu client, ?_, (hu client).trans (hu client₂).symm⟩
  rw [hu client]
  by_cases hf : firstSymbol (headerGet r "Tailscale-User-Login") = "" <;>
    simp [encodeUserInfo, Json.objKeys, hlogin, hf]

/-- Witness for C10 at a concrete request carrying only the login header. -/
theorem user_login_header_alone_witness :
    userHandler false failingClient reqLoginOnly = ⟨true, "carol@example.com", "", "c", ""⟩ ∧
    "display_name" ∉ (encodeUserInfo (userHandler false failingClient reqLoginOnly)).objKeys := by
  obtain ⟨h1, h2, h3⟩ :=
    user_login_header_alone false failingClient okClient reqLoginOnly (by decide) (by decide)
  exact ⟨h1.trans (by decide), h2⟩

/-- C8 counterexample: with no identity header and a failing WhoIs lookup,
the GET /api/user response is identical in embedded (tsnet) mode and in
standard mode — so a caller cannot tell the two failure reasons apart from
the response; the response error string is the same generic text in both
modes. -/
theorem user_mode_indistinguishable :
    userResponse true failingClient reqNoHeaders = userResponse false failingClient reqNoHeaders ∧
    (userHandler true failingClient reqNoHeaders).error = "Tailscale not available" ∧
    (userHandler false failingClient reqNoHeaders).error = "Tailscale not available" := by
  refine ⟨?_, ?_, ?_⟩ <;> decide

/-- C8 amended: when the WhoIs lookup itself errors and no trusted header
is present, the identity resolver fails with mode-dependent reasons whose
content differs between embedded (tsnet) mode and standard mode — but the
user handler flattens both to the same generic error, so the GET /api/user
response is identical in the two modes and the caller cannot distinguish
them from the response (the distinct reasons reach only the server log). -/
theorem whois_mode_error_distinction (client : WhoIsOracle) (r : Request) (e : String)
    (hh : headerGet r "Tailscale-User-Login" = "")
    (hc : client r.remoteAddr = .err e) :
    tailscaleWhois true client r = .error ("failed to identify user via tsnet: " ++ e) ∧
    tailscaleWhois false client r =
      .error "not accessed via Tailscale - use tailscale serve or set TS_AUTHKEY to run in tsnet mode" ∧
    tailscaleWhois true client r ≠ tailscaleWhois false client r ∧
    userResponse true client r = userResponse false client r := by
  have h1 : tailscaleWhois true client r =
      .error ("failed to identify user via tsnet: " ++ e) := by
    rw [tailscaleWhois]
    simp [hh, hc]
  have h2 : tailscaleWhois false client r =
      .error "not accessed via Tailscale - use tailscale serve or set TS_AUTHKEY to run in tsnet mode" := by
    rw [tailscaleWhois]
    simp [hh, hc]
  refine ⟨h1, h2, ?_, ?_⟩
  · rw [h1, h2]
    intro hcontra
    have hs := Except.error.inj hcontra
    have hdata := congrArg String.data hs
    rw [String.data_append] at hdata
    have h4 := congrArg List.head? hdata
    have h5 : ("failed to identify user via tsnet: ".data ++ e.data).head? = some 'f' := rfl
    rw [h5] at h4
    exact absurd h4 (by decide)
  · simp [userResponse, userHandler, h1, h2]

/-- Witness for C8 (amended) at a concrete headerless request and a
concrete failing oracle. -/
theorem whois_mode_error_distinction_witness :
    tailscaleWhois true failingClient reqNoHeaders ≠
      tailscaleWhois false failingClient reqNoHeaders ∧
    userResponse true failingClient reqNoHeaders = userResponse false failingClient reqNoHeaders := by
  have h := whois_mode_error_distinction failingClient reqNoHeaders "no daemon" rfl rfl
  exact ⟨h.2.2.1, h.2.2.2⟩

/-- C3 counterexample: with the database down and no reachable network
status, the GET /health body does not contain a `network` key — the third
field is serialized under the JSON key `tailscale`. -/
theorem health_network_key_counterexample :
    (healthResponse false .errOrNil).body ≠
      "\x7b\"status\":\"ok\",\"database\":\"disconnected\",\"network\":\"unknown\"\x7d" ∧
    (healthResponse false .errOrNil).body =
      "\x7b\"status\":\"ok\",\"database\":\"disconnected\",\"tailscale\":\"unknown\"\x7d" := by
  refine ⟨?_, ?_⟩ <;> decide

/-- C3 amended: GET /health returns HTTP 200 in every combination of
database reachability and status reachability; the `database` field is
"connected" exactly when the ping succeeds, the third field (JSON key
`tailscale`, not `network`) is "connected" when the backend state is
"Running", the raw backend-state string otherwise, and "unknown" when the
status call fails; each field depends only on its own dependency; with
the database down and no status, the body is exactly the disconnected /
unknown object under the `tailscale` key. -/
theorem health_cases (ping : Bool) (st : StatusResult) :
    (healthResponse ping st).status = 200 ∧
    ((healthHandler ping st).database = "connected" ↔ ping = true) ∧
    (st = .errOrNil → (healthHandler ping st).tailscale = "unknown") ∧
    (∀ bs, st = .ok bs →
      (healthHandler ping st).tailscale = if bs = "Running" then "connected" else bs) ∧
    (∀ st₂, (healthHandler ping st₂).database = (healthHandler ping st).database) ∧
    (∀ p₂, (healthHandler p₂ st).tailscale = (healthHandler ping st).tailscale) ∧
    healthResponse false .errOrNil =
      ⟨200, "\x7b\"status\":\"ok\",\"database\":\"disconnected\",\"tailscale\":\"unknown\"\x7d"⟩ := by
  refine ⟨rfl, ?_, ?_, ?_, fun st₂ => rfl, fun p₂ => rfl, by decide⟩
  · cases ping
    · exact ⟨fun h => absurd h (by decide : ¬ ("disconnected" = "connected")),
        fun h => absurd h (by decide : ¬ (false = true))⟩
    · exact ⟨fun _ => rfl, fun _ => rfl⟩
  · rintro rfl
    rfl
  · rintro bs rfl
    rfl

/-- Witness for C3 (amended) exercising both status shapes and the ping
branch. -/
theorem health_cases_witness :
    (healthResponse true (.ok "Stopped")).status = 200 ∧
    (healthHandler true (.ok "Stopped")).tailscale = "Stopped" ∧
    (healthHandler false (.ok "Running")).tailscale = "connected" ∧
    (healthHandler true (.ok "Running")).database = "connected" := by
  refine ⟨(health_cases true (.ok "Stopped")).1, ?_, ?_, ?_⟩
  · exact ((health_cases true (.ok "Stopped")).2.2.2.1 "Stopped" rfl).trans (by decide)
  · exact ((health_cases false (.ok "Running")).2.2.2.1 "Running" rfl).trans (by decide)
  · exact (health_cases true (.ok "Running")).2.1.mpr rfl

/-- C4 counterexample: with a successful query over an empty products
table, GET /api/products returns HTTP 200 whose body is `null`, not the
empty array `[]` — the Go `products` slice is still nil when no row was
appended, and `encoding/json` renders a nil slice as `null`. -/
theorem products_empty_counterexample :
    productsHandler emptyDb = ⟨200, "null"⟩ ∧ (productsHandler emptyDb).body ≠ "[]" := by
  refine ⟨?_, ?_⟩ <;> decide

/-- C4 amended: when the products query succeeds with zero rows, the
handler returns HTTP 200 with body exactly `null` (a Go nil slice), not
`[]`, for every column list. -/
theorem products_empty_null (cols : List String) :
    productsHandler (.ok ⟨.ok cols, [], none⟩) = ⟨200, "null"⟩ := rfl

/-- C5: the row-marshaling coercion sends binary values to their string
form and temporal values to RFC 3339 strings, and passes every other value
kind through unchanged; and every entry of the row mapping is the coerced
image of a scanned column value. -/
theorem row_value_coercion :
    (∀ b, coerceValue (.vBytes b) = .vString (stringOfBytes b)) ∧
    (∀ t, coerceValue (.vTime t) = .vString (formatRFC3339 t)) ∧
    (∀ n, coerceValue (.vInt n) = .vInt n) ∧
    (∀ b, coerceValue (.vBool b) = .vBool b) ∧
    (∀ s, coerceValue (.vString s) = .vString s) ∧
    coerceValue .vNull = .vNull ∧
    (∀ cols vals p, p ∈ marshalRow cols vals →
      ∃ q ∈ cols.zip vals, p = (q.1, coerceValue q.2)) := by
  refine ⟨fun b => rfl, fun t => rfl, fun n => rfl, fun b => rfl, fun s => rfl, rfl, ?_⟩
  intro cols vals p hp
  rcases mem_marshalFold p (cols.zip vals) [] (by simpa [marshalRow] using hp) with h | h
  · simp at h
  · exact h

/-- Witness for C5 at a one-column row holding a binary value. -/
theorem row_value_coercion_witness :
    ∃ q ∈ (["t"].zip [SqlValue.vBytes [72, 105]]),
      ("t", SqlValue.vString "Hi") = (q.1, coerceValue q.2) :=
  row_value_coercion.2.2.2.2.2.2 ["t"] [.vBytes [72, 105]]
    ("t", .vString "Hi") (by decide)

/-- C6 counterexample: with column list ["name", "id"], the encoded row
object's keys come out in sorted order ["id", "name"], not in column
order — Go maps do not preserve insertion order and `encoding/json` sorts
map keys. -/
theorem row_key_order_counterexample :
    (encodeGoMap (marshalRow ["name", "id"] [.vString "Business VPN", .vInt 1])).objKeys =
      ["id", "name"] ∧
    (encodeGoMap (marshalRow ["name", "id"] [.vString "Business VPN", .vInt 1])).objKeys ≠
      ["name", "id"] := by
  refine ⟨?_, ?_⟩ <;> decide

/-- C6 amended: the marshaler produces one mapping per row, and within
each encoded row the keys are exactly the column names but appear in
lexicographically sorted order (the Go map loses insertion order and the
JSON encoder sorts keys), not in cursor column order. -/
theorem row_encoding_sorted_keys (cols : List String) (vals : List SqlValue)
    (hlen : vals.length = cols.length) (scans : List ScanOutcome)
    (ps : List (List (String × SqlValue))) (hb : buildProducts cols scans = .ok ps) :
    ps.length = scans.length ∧
    List.Pairwise (fun a b => strLe a b = true) (encodeGoMap (marshalRow cols vals)).objKeys ∧
    (∀ k, k ∈ (encodeGoMap (marshalRow cols vals)).objKeys ↔ k ∈ cols) := by
  refine ⟨buildProducts_length cols scans ps hb, ?_, ?_⟩
  · rw [objKeys_encodeGoMap]
    exact sorted_sortStrings _
  · intro k
    rw [objKeys_encodeGoMap, mem_sortStrings, keys_marshalRow,
      List.map_fst_zip cols vals (le_of_eq hlen.symm)]

/-- Witness for C6 (amended) at a concrete two-column row. -/
theorem row_encoding_sorted_keys_witness :
    List.Pairwise (fun a b => strLe a b = true)
      (encodeGoMap (marshalRow ["name", "id"] [.vString "Business VPN", .vInt 1])).objKeys ∧
    ("id" ∈ (encodeGoMap (marshalRow ["name", "id"] [.vString "Business VPN", .vInt 1])).objKeys ↔
      "id" ∈ ["name", "id"]) := by
  have h := row_encoding_sorted_keys ["name", "id"] [.vString "Business VPN", .vInt 1] rfl
    [.ok [.vString "Business VPN", .vInt 1]]
    [marshalRow ["name", "id"] [.vString "Business VPN", .vInt 1]] rfl
  exact ⟨h.2.1, h.2.2 "id"⟩

/-- C7: whenever the query, column introspection, any row scan, or cursor
iteration fails, GET /api/products returns HTTP 500 with a body that is
exactly a JSON error object carrying a non-empty message and no row data;
otherwise it returns HTTP 200 with the complete marshaled row sequence —
never a partial result set. -/
theorem products_error_short_circuit (db : DbOutcome) :
    (dbFailed db = true →
      (productsHandler db).status = 500 ∧
      ∃ m, m ≠ "" ∧ (productsHandler db).body = errorBody m) ∧
    (dbFailed db = false →
      ∃ rows cols, db = .ok rows ∧ rows.columnsRes = .ok cols ∧
        productsHandler db = ⟨200, Json.render (encodeProductsSlice
          (rows.scans.map fun s => marshalRow cols (scanValues s)))⟩) := by
  constructor
  · intro hf
    cases db with
    | queryFail msg =>
      exact ⟨rfl, "Failed to query database: " ++ msg,
        append_ne_empty _ _ (by decide), rfl⟩
    | ok rows =>
      cases hcols : rows.columnsRes with
      | error msg =>
        refine ⟨?_, "Failed to get columns: " ++ msg,
          append_ne_empty _ _ (by decide), ?_⟩ <;>
          simp [productsHandler, hcols]
      | ok cols =>
        cases hscan : rows.scans.any scanFailed with
        | true =>
          obtain ⟨e, he⟩ := buildProducts_any_fail cols rows.scans hscan
          refine ⟨?_, "Failed to scan row: " ++ e,
            append_ne_empty _ _ (by decide), ?_⟩ <;>
            simp [productsHandler, hcols, he]
        | false =>
          have hiter : rows.iterErr.isSome = true := by
            simp [dbFailed, hcols, hscan] at hf
            exact hf
          obtain ⟨msg, hmsg⟩ := Option.isSome_iff_exists.mp hiter
          have hall : ∀ s ∈ rows.scans, scanFailed s = false := by
            intro s hs
            cases hval : scanFailed s with
            | false => rfl
            | true => exact absurd (List.any_eq_true.mpr ⟨s, hs, hval⟩) (by simp [hscan])
          have hbp := buildProducts_all_ok cols rows.scans hall
          refine ⟨?_, "Error iterating rows: " ++ msg,
            append_ne_empty _ _ (by decide), ?_⟩ <;>
            simp [productsHandler, hcols, hbp, hmsg]
  · intro hf
    cases db with
    | queryFail msg => simp [dbFailed] at hf
    | ok rows =>
      cases hcols : rows.columnsRes with
      | error msg => simp [dbFailed, hcols] at hf
      | ok cols =>
        simp [dbFailed, hcols] at hf
        obtain ⟨hscan, hiter⟩ := hf
        have hbp := buildProducts_all_ok cols rows.scans hscan
        refine ⟨rows, cols, rfl, hcols, ?_⟩
        simp [productsHandler, hcols, hbp, hiter]

/-- Witness for C7 at a concrete failed query and a concrete one-row
success. -/
theorem products_error_short_circuit_witness :
    (productsHandler failDb).status = 500 ∧ (productsHandler oneRowDb).status = 200 := by
  constructor
  · exact ((products_error_short_circuit failDb).1 (by decide)).1
  · obtain ⟨rows, cols, -, -, heq⟩ := (products_error_short_circuit oneRowDb).2 (by decide)
    rw [heq]
